import Mathlib

/-!
Verification development for the amazon-bedrock-samples notebooks.

Python strings are modelled as lists of characters; Python `str.split`,
`str.strip`, `str.lower` and substring tests are embedded as executable
functions on `List Char`.  Calls into AWS SDKs and third-party libraries
(boto3, xmltodict, requests) are modelled as explicit oracle parameters;
a raised Python exception is modelled by `Option`/`PyResult` values.
-/

set_option maxHeartbeats 1000000
set_option maxRecDepth 8192

namespace BedrockSamples

/-- Python strings, modelled as lists of characters. -/
abbrev PyStr := List Char

/-- Embed a Lean string literal into the model. -/
def pys (s : String) : PyStr := s.toList

/-- Whitespace as stripped by Python `str.strip()` (ASCII range). -/
def isPySpace (c : Char) : Bool :=
  c == ' ' || c == '\t' || c == '\n' || c == '\x0d' || c == '\x0b' || c == '\x0c'

/-- Python `s.strip()`. -/
def pyStrip (s : PyStr) : PyStr :=
  ((s.dropWhile isPySpace).reverse.dropWhile isPySpace).reverse

/-- Python `s.lower()` (ASCII range). -/
def pyLower (s : PyStr) : PyStr := s.map Char.toLower

/-- Split at the first occurrence of `sep`: `some (before, after)` when `sep`
occurs in `s`, `none` otherwise. -/
def splitFirst (sep : PyStr) : PyStr → Option (PyStr × PyStr)
  | [] => if sep.isPrefixOf ([] : PyStr) then some ([], []) else none
  | c :: rest =>
    if sep.isPrefixOf (c :: rest) then some ([], (c :: rest).drop sep.length)
    else
      match splitFirst sep rest with
      | some (pre, post) => some (c :: pre, post)
      | none => none

theorem splitFirst_nil {sep : PyStr} (hsep : sep ≠ []) : splitFirst sep [] = none := by
  cases sep with
  | nil => exact absurd rfl hsep
  | cons c t => simp [splitFirst, List.isPrefixOf]

theorem splitFirst_some_length {sep : PyStr} (hsep : sep ≠ []) :
    ∀ {s pre post : PyStr}, splitFirst sep s = some (pre, post) → post.length < s.length := by
  intro s
  induction s with
  | nil =>
    intro pre post h
    rw [splitFirst_nil hsep] at h
    exact absurd h (by simp)
  | cons c rest ih =>
    intro pre post h
    rw [splitFirst] at h
    by_cases hp : sep.isPrefixOf (c :: rest) = true
    · rw [if_pos hp] at h
      obtain ⟨h1, h2⟩ := Prod.mk.injEq .. ▸ Option.some.injEq .. ▸ h
      have hlen : sep.length ≤ (c :: rest).length :=
        (List.isPrefixOf_iff_prefix.mp hp).length_le
      have hpos : 0 < sep.length := List.length_pos.mpr hsep
      subst h2
      simp only [List.length_drop]
      omega
    · rw [if_neg hp] at h
      cases hrec : splitFirst sep rest with
      | none => rw [hrec] at h; exact absurd h (by simp)
      | some pr =>
        rw [hrec] at h
        obtain ⟨pre', post'⟩ := pr
        obtain ⟨h1, h2⟩ := Prod.mk.injEq .. ▸ Option.some.injEq .. ▸ h
        subst h2
        have := ih hrec
        simp only [List.length_cons]
        omega

/-- Fuel-driven worker for `pySplit`; the fuel is an upper bound on the number
of separator occurrences, so `s.length` is always enough. -/
def pySplitAux (sep : PyStr) : Nat → PyStr → List PyStr
  | 0, s => [s]
  | fuel + 1, s =>
    match splitFirst sep s with
    | none => [s]
    | some (pre, post) => pre :: pySplitAux sep fuel post

/-- Python `s.split(sep)` for a nonempty separator. -/
def pySplit (s sep : PyStr) : List PyStr := pySplitAux sep s.length s

theorem pySplitAux_congr {sep : PyStr} (hsep : sep ≠ []) :
    ∀ f₁ f₂ s, s.length ≤ f₁ → s.length ≤ f₂ → pySplitAux sep f₁ s = pySplitAux sep f₂ s := by
  intro f₁
  induction f₁ with
  | zero =>
    intro f₂ s h1 h2
    have : s = [] := List.eq_nil_of_length_eq_zero (Nat.le_zero.mp h1)
    subst this
    cases f₂ with
    | zero => rfl
    | succ k => simp [pySplitAux, splitFirst_nil hsep]
  | succ n ih =>
    intro f₂ s h1 h2
    cases f₂ with
    | zero =>
      have : s = [] := List.eq_nil_of_length_eq_zero (Nat.le_zero.mp h2)
      subst this
      simp [pySplitAux, splitFirst_nil hsep]
    | succ m =>
      simp only [pySplitAux]
      cases hsf : splitFirst sep s with
      | none => rfl
      | some pr =>
        obtain ⟨pre, post⟩ := pr
        have hlt := splitFirst_some_length hsep hsf
        have heq := ih m post (by omega) (by omega)
        show pre :: pySplitAux sep n post = pre :: pySplitAux sep m post
        rw [heq]

theorem pySplit_cons_of_splitFirst {sep : PyStr} (hsep : sep ≠ []) {s pre post : PyStr}
    (h : splitFirst sep s = some (pre, post)) :
    pySplit s sep = pre :: pySplit post sep := by
  have hlt := splitFirst_some_length hsep h
  unfold pySplit
  cases hs : s.length with
  | zero =>
    exfalso
    omega
  | succ n =>
    simp only [pySplitAux, h]
    rw [pySplitAux_congr hsep n post.length post (by omega) (le_refl _)]

theorem pySplit_single {sep s : PyStr} (h : splitFirst sep s = none) :
    pySplit s sep = [s] := by
  unfold pySplit
  cases hs : s.length with
  | zero => rfl
  | succ n => simp [pySplitAux, h]

/-- `sep` has no occurrence starting strictly inside `a` in the word `a ++ sep`.
This is exactly the condition under which the first occurrence of `sep` in
`a ++ sep ++ b` is the explicit one at position `a.length`. -/
def cleanBefore (sep a : PyStr) : Prop :=
  ∀ i, i < a.length → ¬ sep.isPrefixOf ((a ++ sep).drop i) = true

instance (sep a : PyStr) : Decidable (cleanBefore sep a) := by
  unfold cleanBefore
  infer_instance

/-- `sep` occurs nowhere in `l` (bounded form, decidable). -/
def noOcc (sep l : PyStr) : Prop :=
  ∀ i, i ≤ l.length → ¬ sep.isPrefixOf (l.drop i) = true

instance (sep l : PyStr) : Decidable (noOcc sep l) := by
  unfold noOcc
  infer_instance

theorem splitFirst_eq_none {sep : PyStr} (hsep : sep ≠ []) :
    ∀ s, noOcc sep s → splitFirst sep s = none := by
  intro s
  induction s with
  | nil => intro _; exact splitFirst_nil hsep
  | cons c rest ih =>
    intro h
    rw [splitFirst]
    have h0 : ¬ sep.isPrefixOf (c :: rest) = true := by
      have := h 0 (by simp)
      simpa using this
    rw [if_neg h0]
    have : noOcc sep rest := by
      intro i hi
      have := h (i + 1) (by simpa using Nat.succ_le_succ hi)
      simpa using this
    rw [ih this]

theorem splitFirst_of_cleanBefore {sep : PyStr} (hsep : sep ≠ []) :
    ∀ a b, cleanBefore sep a → splitFirst sep (a ++ sep ++ b) = some (a, b) := by
  intro a
  induction a with
  | nil =>
    intro b _
    obtain ⟨c, t, rfl⟩ : ∃ c t, sep = c :: t := by
      cases sep with
      | nil => exact absurd rfl hsep
      | cons c t => exact ⟨c, t, rfl⟩
    show splitFirst (c :: t) (c :: (t ++ b)) = some ([], b)
    rw [splitFirst]
    rw [if_pos (List.isPrefixOf_iff_prefix.mpr ⟨b, by simp⟩)]
    have hdrop : (c :: (t ++ b)).drop (c :: t).length = b := by
      simp only [List.length_cons, List.drop_succ_cons]
      exact List.drop_left t b
    rw [hdrop]
  | cons x a' ih =>
    intro b hclean
    show splitFirst sep (x :: (a' ++ sep ++ b)) = some (x :: a', b)
    rw [splitFirst]
    have h0 : ¬ sep.isPrefixOf (x :: (a' ++ sep ++ b)) = true := by
      intro hp
      have hpre : sep <+: (x :: a') ++ sep := by
        have hpre' : sep <+: (x :: (a' ++ sep ++ b)) := List.isPrefixOf_iff_prefix.mp hp
        have htake := List.prefix_iff_eq_take.mp hpre'
        have hlen : sep.length ≤ ((x :: a') ++ sep).length := by
          simp only [List.length_append, List.length_cons]
          omega
        have heq : (x :: (a' ++ sep ++ b)).take sep.length
            = ((x :: a') ++ sep).take sep.length := by
          have hx : (x :: (a' ++ sep ++ b)) = ((x :: a') ++ sep) ++ b := by simp
          rw [hx, List.take_append_of_le_length hlen]
        exact List.prefix_iff_eq_take.mpr (htake.trans heq)
      have h00 := hclean 0 (by simp)
      simp only [List.drop_zero] at h00
      exact h00 (List.isPrefixOf_iff_prefix.mpr (by simpa using hpre))
    rw [if_neg h0]
    have hclean' : cleanBefore sep a' := by
      intro i hi
      have := hclean (i + 1) (by simpa using Nat.succ_le_succ hi)
      simpa using this
    rw [ih b hclean']

/-- Python `s.split(sep)[0]`: the text before the first occurrence of `sep`
(all of `s` when `sep` does not occur). -/
def beforeFirst (sep s : PyStr) : PyStr :=
  match splitFirst sep s with
  | none => s
  | some (pre, _) => pre

theorem pySplit_head {sep : PyStr} (hsep : sep ≠ []) (s : PyStr) :
    ∃ rest, pySplit s sep = beforeFirst sep s :: rest := by
  cases h : splitFirst sep s with
  | none => exact ⟨[], by rw [pySplit_single h, beforeFirst, h]⟩
  | some pr =>
    obtain ⟨pre, post⟩ := pr
    exact ⟨pySplit post sep, by rw [pySplit_cons_of_splitFirst hsep h, beforeFirst, h]⟩

theorem beforeFirst_of_cleanBefore {sep : PyStr} (hsep : sep ≠ []) (a b : PyStr)
    (h : cleanBefore sep a) : beforeFirst sep (a ++ sep ++ b) = a := by
  rw [beforeFirst, splitFirst_of_cleanBefore hsep a b h]

/-- Python `"c" in s` for a nonempty `c`. -/
def pyContains (s sub : PyStr) : Bool := (splitFirst sub s).isSome

/-- Splitting the `sep`-join of a list of `sep`-free lines recovers the lines
(Python `sep.join(lines).split(sep) == lines`). -/
theorem pySplit_intercalate {sep : PyStr} (hsep : sep ≠ []) :
    ∀ lines : List PyStr, lines ≠ [] →
      (∀ l ∈ lines, noOcc sep l ∧ cleanBefore sep l) →
      pySplit (List.intercalate sep lines) sep = lines := by
  intro lines
  induction lines with
  | nil => intro h _; exact absurd rfl h
  | cons l rest ih =>
    intro _ hfree
    cases rest with
    | nil =>
      have := (hfree l (by simp)).1
      have h1 : List.intercalate sep [l] = l := by
        simp [List.intercalate, List.intersperse]
      rw [h1]
      exact pySplit_single (splitFirst_eq_none hsep l this)
    | cons l2 rest2 =>
      have hinter : List.intercalate sep (l :: l2 :: rest2)
          = l ++ sep ++ List.intercalate sep (l2 :: rest2) := by
        simp [List.intercalate, List.intersperse]
      rw [hinter]
      have hsf := splitFirst_of_cleanBefore hsep l (List.intercalate sep (l2 :: rest2))
        (hfree l (by simp)).2
      rw [pySplit_cons_of_splitFirst hsep hsf]
      rw [ih (by simp) (fun x hx => hfree x (by simp [hx]))]

/-! ## C2: convert_glossary_to_dict
(01-setup-create-insert-dynamodb.ipynb) -/

/-- One glossary item, a dict with keys term and term_definition. -/
structure GlossaryEntry where
  term : PyStr
  term_definition : PyStr
  deriving DecidableEq, Repr

/-- Body of the for-loop of convert_glossary_to_dict for one line of the
glossary.  `none` models the IndexError raised by `terms_def[1]` when the
stripped line contains no `": "`; `some none` is a line that appends
nothing. -/
def processGlossaryLine (rawLine : PyStr) : Option (Option GlossaryEntry) :=
  let line := pyStrip rawLine
  if line = [] then some none
  else
    match pySplit line (pys ": ") with
    | t :: d :: _ =>
      let current_term := pyLower t
      if current_term = [] then some none
      else some (some ⟨pyLower current_term, d⟩)
    | _ => none

def convertLines : List PyStr → Option (List GlossaryEntry)
  | [] => some []
  | l :: rest =>
    match processGlossaryLine l with
    | none => none
    | some none => convertLines rest
    | some (some e) => (convertLines rest).map (fun es => e :: es)

/-- convert_glossary_to_dict: split the glossary on newlines, strip each line,
skip empty ones, split each remaining line on `": "`, lowercase the term and
collect term/term_definition dicts.  `none` models a raised IndexError. -/
def convert_glossary_to_dict (glossary : PyStr) : Option (List GlossaryEntry) :=
  convertLines (pySplit glossary (pys "\n"))

/-- Rendering of one modelled glossary line: `none` is an empty line, and
`some (t, d)` the line `t ++ ": " ++ d`. -/
def glossaryLineStr : Option (PyStr × PyStr) → PyStr
  | none => []
  | some (t, d) => t ++ pys ": " ++ d

/-- Well-formedness of one modelled glossary line: term nonempty, the line is
already stripped, the first `": "` sits between term and definition, and the
line is newline-free. -/
def glossaryLineOk : Option (PyStr × PyStr) → Prop
  | none => True
  | some (t, d) =>
      t ≠ [] ∧ pyStrip (t ++ pys ": " ++ d) = t ++ pys ": " ++ d ∧
      cleanBefore (pys ": ") t ∧
      noOcc (pys "\n") (t ++ pys ": " ++ d) ∧ cleanBefore (pys "\n") (t ++ pys ": " ++ d)

instance (p : Option (PyStr × PyStr)) : Decidable (glossaryLineOk p) := by
  cases p with
  | none => exact .isTrue trivial
  | some q => unfold glossaryLineOk; infer_instance

theorem processGlossaryLine_some {t d : PyStr} (ht : t ≠ [])
    (hstrip : pyStrip (t ++ pys ": " ++ d) = t ++ pys ": " ++ d)
    (hclean : cleanBefore (pys ": ") t) :
    processGlossaryLine (t ++ pys ": " ++ d)
      = some (some ⟨pyLower (pyLower t), beforeFirst (pys ": ") d⟩) := by
  have hsep : (pys ": ") ≠ [] := by decide
  have hne : t ++ pys ": " ++ d ≠ [] := by
    cases t with
    | nil => exact absurd rfl ht
    | cons a b => simp
  simp only [processGlossaryLine]
  rw [hstrip, if_neg hne]
  rw [pySplit_cons_of_splitFirst hsep (splitFirst_of_cleanBefore hsep t d hclean)]
  obtain ⟨rest, hrest⟩ := pySplit_head hsep d
  rw [hrest]
  have hlt : pyLower t ≠ [] := by
    simpa [pyLower] using ht
  simp [hlt]

theorem convertLines_map (lines : List (Option (PyStr × PyStr)))
    (hok : ∀ p ∈ lines, glossaryLineOk p) :
    convertLines (lines.map glossaryLineStr)
      = some (lines.filterMap (fun p => p.map
          (fun q => ⟨pyLower (pyLower q.1), beforeFirst (pys ": ") q.2⟩))) := by
  induction lines with
  | nil => rfl
  | cons p rest ih =>
    have hrest := ih (fun x hx => hok x (by simp [hx]))
    cases p with
    | none =>
      simp only [List.map_cons, glossaryLineStr, convertLines]
      rw [show processGlossaryLine [] = some none from rfl]
      simpa [List.filterMap_cons] using hrest
    | some q =>
      obtain ⟨t, d⟩ := q
      obtain ⟨ht, hstrip, hclean, -, -⟩ := hok (some (t, d)) (by simp)
      simp only [List.map_cons, glossaryLineStr, convertLines]
      rw [processGlossaryLine_some ht hstrip hclean, hrest]
      simp [List.filterMap_cons]

/-- C2 counterexample: on the line `"a: b: c"` the code returns the pair
`("a", "b")`, not the claimed pair whose definition is the entire remainder
`"b: c"` after the first `": "` (because `line.split(': ')[1]` is only the
segment between the first and the second separator). -/
theorem c2_convert_glossary_cex :
    convert_glossary_to_dict (pys "a: b: c") = some [⟨pys "a", pys "b"⟩] ∧
    (⟨pys "a", pys "b"⟩ : GlossaryEntry) ≠ ⟨pys "a", pys "b: c"⟩ := by
  decide

/-- C2 (amended): for every glossary whose non-empty lines are already
stripped and contain `": "` with a nonempty term part, the function returns
one term/definition pair per non-empty line whose term is the text before the
first `": "` lowercased, and whose term_definition is the remainder of the
line after the first `": "` truncated at the next occurrence of `": "` (the
entire remainder only when `": "` does not occur again); lines that are empty
contribute no pair.  (Lines lacking `": "` raise IndexError instead.) -/
theorem c2_convert_glossary_amended (lines : List (Option (PyStr × PyStr)))
    (hok : ∀ p ∈ lines, glossaryLineOk p) :
    convert_glossary_to_dict (List.intercalate (pys "\n") (lines.map glossaryLineStr)) =
      some (lines.filterMap (fun p => p.map
        (fun q => ⟨pyLower (pyLower q.1), beforeFirst (pys ": ") q.2⟩))) := by
  cases hl : lines with
  | nil => rfl
  | cons p rest =>
    subst hl
    unfold convert_glossary_to_dict
    have hfree : ∀ l ∈ (p :: rest).map glossaryLineStr,
        noOcc (pys "\n") l ∧ cleanBefore (pys "\n") l := by
      intro l hlmem
      obtain ⟨q, hq, rfl⟩ := List.mem_map.mp hlmem
      cases q with
      | none => exact ⟨by decide, by decide⟩
      | some pair =>
        obtain ⟨t, d⟩ := pair
        obtain ⟨-, -, -, h4, h5⟩ := hok (some (t, d)) hq
        exact ⟨h4, h5⟩
    rw [pySplit_intercalate (by decide) _ (by simp) hfree]
    exact convertLines_map _ hok

def c2WitnessLines : List (Option (PyStr × PyStr)) :=
  [none, some (pys "ceo", pys "Cheif Executive Officer")]

theorem c2_convert_glossary_amended_witness :
    (∀ p ∈ c2WitnessLines, glossaryLineOk p) ∧
    convert_glossary_to_dict (List.intercalate (pys "\n") (c2WitnessLines.map glossaryLineStr)) =
      some [⟨pys "ceo", pys "Cheif Executive Officer"⟩] :=
  ⟨by decide, (c2_convert_glossary_amended c2WitnessLines (by decide)).trans (by decide)⟩

/-! ## Agent notebook (05_agent_based_text_generation.ipynb):
call_function, get_lat_long, single_retriever_step -/

/-- Outcome of a Python call: a value, or a raised exception with its class
name and, for botocore ClientError, the error code. -/
inductive PyResult (α : Type) where
  | ok (val : α)
  | exc (cls : String) (code : Option String)
  deriving DecidableEq, Repr

/-- Values stored in the wrapper dictionaries (service responses carry either
strings or numbers). -/
inductive PyVal where
  | vstr (s : PyStr)
  | vnum (q : Rat)
  deriving DecidableEq

/-- get_lat_long: the argument is the outcome of
`search_place_index_for_text` projected to the list of result Points, each a
(longitude, latitude) pair.  The bare `except:` catches every raised
exception as well as the IndexError on an empty result list, so the function
always returns a dict with exactly the keys latitude and longitude. -/
def get_lat_long (svc : PyResult (List (PyVal × PyVal))) : List (String × PyVal) :=
  match svc with
  | .ok ((lon, lat) :: _) => [("latitude", lat), ("longitude", lon)]
  | .ok [] => [("latitude", .vstr (pys "0")), ("longitude", .vstr (pys "0"))]
  | .exc _ _ => [("latitude", .vstr (pys "0")), ("longitude", .vstr (pys "0"))]

/-- The functions defined at the notebook's top level (the bindings that
`globals()` exposes to name lookup). -/
inductive NotebookFunc where
  | get_lat_long_fn
  | get_weather_fn
  | call_function_fn
  | invoke_model_fn
  | single_retriever_step_fn
  deriving DecidableEq, Repr

/-- The notebook's global namespace, restricted to its function bindings. -/
def notebook_globals : List (String × NotebookFunc) :=
  [("get_lat_long", .get_lat_long_fn),
   ("get_weather", .get_weather_fn),
   ("call_function", .call_function_fn),
   ("invoke_model", .invoke_model_fn),
   ("single_retriever_step", .single_retriever_step_fn)]

/-- `func = globals()[tool_name]`: reflective lookup in the global namespace;
`none` models the KeyError on an unbound name. -/
def globals_lookup (tool_name : String) : Option NotebookFunc :=
  notebook_globals.lookup tool_name

/-- Keyword arguments parsed out of the `<parameters>` block. -/
abbrev ToolParams := List (String × PyStr)

/-- call_function: `func = globals()[tool_name]; output = func(**parameters)`.
`run` is the oracle giving the outcome of actually invoking a notebook
function (services, network); `none` models a raised exception. -/
def call_function (run : NotebookFunc → ToolParams → Option PyStr)
    (tool_name : String) (parameters : ToolParams) : Option PyStr :=
  match globals_lookup tool_name with
  | none => none
  | some f => run f parameters

/-- The `invoke` entry of the dict xmltodict.parse builds from a
`<function_calls>` block. -/
structure InvokeCall where
  tool_name : String
  parameters : ToolParams
  deriving DecidableEq

/-- External effects of one retriever step: `parseInvoke` models
`xmltodict.parse(...)['invoke']` plus the two key lookups (`none` is a raised
parse/KeyError), and `run` models actually invoking a notebook function. -/
structure AgentEnv where
  parseInvoke : PyStr → Option InvokeCall
  run : NotebookFunc → ToolParams → Option PyStr

/-- The next human input wrapped around a function result. -/
def func_response_str (func_response : PyStr) : PyStr :=
  pys "\n\nHuman: Here is the result from your function call\n\n" ++
    (pys "<function_results>\n" ++ func_response ++ pys "\n</function_results>") ++
    pys "\n\nIf you know the answer, say it. If not, what is the next step?\n\nAssistant:"

/-- single_retriever_step.  `none` models a raised exception (IndexError when
a needed tag is missing, xmltodict/KeyError failures, or a raising tool). -/
def single_retriever_step (env : AgentEnv) (prompt output : PyStr) :
    Option (Bool × PyStr) :=
  if pyContains output (pys "<answer>") then
    match pySplit output (pys "<answer>") with
    | _ :: answer1 :: _ =>
      some (true, (pySplit answer1 (pys "</answer>")).headD [])
    | _ => none
  else
    match pySplit output (pys "<function_calls>") with
    | _ :: seg :: _ =>
      let function_xml := (pySplit seg (pys "</function_calls>")).headD []
      match env.parseInvoke function_xml with
      | none => none
      | some call =>
        match call_function env.run call.tool_name call.parameters with
        | none => none
        | some func_response =>
          some (false, prompt ++ output ++ func_response_str func_response)
    | _ => none

/-- An environment in which every external effect raises. -/
def failingAgentEnv : AgentEnv := ⟨fun _ => none, fun _ _ => none⟩

/-- Renders each notebook function's name, to record which one a dispatch
invoked. -/
def funcName : NotebookFunc → String
  | .get_lat_long_fn => "get_lat_long"
  | .get_weather_fn => "get_weather"
  | .call_function_fn => "call_function"
  | .invoke_model_fn => "invoke_model"
  | .single_retriever_step_fn => "single_retriever_step"

/-- An invocation oracle that reports which function was invoked. -/
def runNamer : NotebookFunc → ToolParams → Option PyStr :=
  fun f _ => some (pys (funcName f))

/-- An environment whose XML parse yields a call to invoke_model. -/
def invokeModelEnv : AgentEnv :=
  ⟨fun _ => some ⟨"invoke_model", []⟩, runNamer⟩

theorem globals_lookup_eq (tool_name : String) :
    globals_lookup tool_name =
      if tool_name = "get_lat_long" then some .get_lat_long_fn
      else if tool_name = "get_weather" then some .get_weather_fn
      else if tool_name = "call_function" then some .call_function_fn
      else if tool_name = "invoke_model" then some .invoke_model_fn
      else if tool_name = "single_retriever_step" then some .single_retriever_step_fn
      else none := by
  by_cases h1 : tool_name = "get_lat_long"
  · subst h1; decide
  by_cases h2 : tool_name = "get_weather"
  · subst h2; decide
  by_cases h3 : tool_name = "call_function"
  · subst h3; decide
  by_cases h4 : tool_name = "invoke_model"
  · subst h4; decide
  by_cases h5 : tool_name = "single_retriever_step"
  · subst h5; decide
  have b1 : (tool_name == "get_lat_long") = false := beq_eq_false_iff_ne.mpr h1
  have b2 : (tool_name == "get_weather") = false := beq_eq_false_iff_ne.mpr h2
  have b3 : (tool_name == "call_function") = false := beq_eq_false_iff_ne.mpr h3
  have b4 : (tool_name == "invoke_model") = false := beq_eq_false_iff_ne.mpr h4
  have b5 : (tool_name == "single_retriever_step") = false := beq_eq_false_iff_ne.mpr h5
  simp [globals_lookup, notebook_globals, List.lookup, b1, b2, b3, b4, b5, h1, h2, h3, h4, h5]

/-- C1 counterexample: a `<function_calls>` block whose tool_name is
invoke_model makes call_function invoke invoke_model — a function that is
neither get_lat_long nor get_weather — because the dispatch is a raw
`globals()` lookup. -/
theorem c1_dispatch_cex :
    globals_lookup "invoke_model" = some .invoke_model_fn ∧
    NotebookFunc.invoke_model_fn ≠ .get_lat_long_fn ∧
    NotebookFunc.invoke_model_fn ≠ .get_weather_fn ∧
    single_retriever_step invokeModelEnv []
        (pys "<function_calls><invoke><tool_name>invoke_model</tool_name></invoke></function_calls>")
      = some (false,
          [] ++ pys "<function_calls><invoke><tool_name>invoke_model</tool_name></invoke></function_calls>"
             ++ func_response_str (pys "invoke_model")) := by
  decide

/-- C1 (amended): call_function resolves tool_name by global-namespace
lookup and invokes exactly the global binding of that name: the names
get_lat_long and get_weather reach the two tools, but every other
globally-defined function (invoke_model, call_function itself,
single_retriever_step) is equally reachable when named; the dispatch is not
restricted to the two hardcoded tools. -/
theorem c1_dispatch_amended (tool_name : String) (f : NotebookFunc)
    (h : globals_lookup tool_name = some f) :
    (tool_name, f) ∈ notebook_globals ∧
    (f = .get_lat_long_fn ↔ tool_name = "get_lat_long") ∧
    (f = .get_weather_fn ↔ tool_name = "get_weather") ∧
    ∀ run parameters, call_function run tool_name parameters = run f parameters := by
  rw [globals_lookup_eq] at h
  split_ifs at h <;> cases h <;> subst_vars <;>
    exact ⟨by decide, by decide, by decide, fun run p => rfl⟩

theorem c1_dispatch_amended_witness :
    globals_lookup "get_weather" = some .get_weather_fn ∧
    (("get_weather", NotebookFunc.get_weather_fn) ∈ notebook_globals ∧
      (NotebookFunc.get_weather_fn = .get_lat_long_fn ↔ "get_weather" = "get_lat_long") ∧
      (NotebookFunc.get_weather_fn = .get_weather_fn ↔ "get_weather" = "get_weather") ∧
      ∀ run parameters, call_function run "get_weather" parameters
        = run .get_weather_fn parameters) :=
  ⟨by decide, c1_dispatch_amended "get_weather" .get_weather_fn (by decide)⟩

/-- C8: get_lat_long never raises; it returns a dict with exactly the keys
latitude and longitude, and whenever the place-index lookup raises (any
exception class) or returns no results, both values are the string "0". -/
theorem c8_get_lat_long_total (svc : PyResult (List (PyVal × PyVal))) :
    (get_lat_long svc).map Prod.fst = ["latitude", "longitude"] ∧
    (∀ cls code, svc = .exc cls code →
      get_lat_long svc
        = [("latitude", .vstr (pys "0")), ("longitude", .vstr (pys "0"))]) ∧
    (svc = .ok [] →
      get_lat_long svc
        = [("latitude", .vstr (pys "0")), ("longitude", .vstr (pys "0"))]) := by
  refine ⟨?_, ?_, ?_⟩
  · cases svc with
    | ok l =>
      cases l with
      | nil => rfl
      | cons p rest => obtain ⟨lon, lat⟩ := p; rfl
    | exc cls code => rfl
  · intro cls code hsvc
    subst hsvc
    rfl
  · intro hsvc
    subst hsvc
    rfl

theorem c8_get_lat_long_total_witness :
    get_lat_long (.exc "ValidationException" none)
      = [("latitude", .vstr (pys "0")), ("longitude", .vstr (pys "0"))] ∧
    get_lat_long (.ok [])
      = [("latitude", .vstr (pys "0")), ("longitude", .vstr (pys "0"))] :=
  ⟨(c8_get_lat_long_total _).2.1 "ValidationException" none rfl,
   (c8_get_lat_long_total _).2.2 rfl⟩

/-- C4 counterexample: when a second `<answer>` precedes the `</answer>`, the
returned text is `output.split('<answer>')[1]` — the segment between the
first two `<answer>` occurrences — truncated at `</answer>`, not the claimed
text between the first `<answer>` and the next `</answer>`. -/
theorem c4_retriever_cex :
    single_retriever_step failingAgentEnv [] (pys "x<answer>a<answer>b</answer>")
      = some (true, pys "a") ∧
    (pys "a" : PyStr) ≠ pys "a<answer>b" := by
  decide

/-- C4 (amended): for every output of the shape
`pre ++ "<answer>" ++ ans ++ "</answer>" ++ post` in which no further
`<answer>` occurs from `ans` onward (and no `</answer>` inside `ans`),
single_retriever_step returns done=True together with exactly `ans`,
invoking no tool and leaving the prompt unextended; the claim's universal
form fails only when a second `<answer>` precedes the `</answer>`, where the
returned text is truncated at that second `<answer>`.  For every output
without `<answer>` that carries a `<function_calls>` block, the step parses
that first block and dispatches the named tool through call_function. -/
theorem c4_retriever_amended :
    (∀ env prompt pre ans post,
      cleanBefore (pys "<answer>") pre →
      cleanBefore (pys "</answer>") ans →
      splitFirst (pys "<answer>") (ans ++ pys "</answer>" ++ post) = none →
      single_retriever_step env prompt
          (pre ++ pys "<answer>" ++ (ans ++ pys "</answer>" ++ post))
        = some (true, ans)) ∧
    (∀ env prompt pre body post call,
      pyContains (pre ++ pys "<function_calls>" ++ (body ++ pys "</function_calls>" ++ post))
          (pys "<answer>") = false →
      cleanBefore (pys "<function_calls>") pre →
      cleanBefore (pys "</function_calls>") body →
      splitFirst (pys "<function_calls>") (body ++ pys "</function_calls>" ++ post) = none →
      env.parseInvoke body = some call →
      single_retriever_step env prompt
          (pre ++ pys "<function_calls>" ++ (body ++ pys "</function_calls>" ++ post))
        = (call_function env.run call.tool_name call.parameters).map
            (fun r => (false,
              prompt ++ (pre ++ pys "<function_calls>" ++ (body ++ pys "</function_calls>" ++ post))
                ++ func_response_str r))) := by
  constructor
  · intro env prompt pre ans post h1 h2 h3
    have hsep : (pys "<answer>") ≠ [] := by decide
    have hsf : splitFirst (pys "<answer>")
        (pre ++ pys "<answer>" ++ (ans ++ pys "</answer>" ++ post))
        = some (pre, ans ++ pys "</answer>" ++ post) :=
      splitFirst_of_cleanBefore hsep pre _ h1
    have hcont : pyContains (pre ++ pys "<answer>" ++ (ans ++ pys "</answer>" ++ post))
        (pys "<answer>") = true := by
      rw [pyContains, hsf]; rfl
    rw [single_retriever_step, hcont, if_pos rfl]
    rw [pySplit_cons_of_splitFirst hsep hsf, pySplit_single h3]
    have hbf := beforeFirst_of_cleanBefore (by decide) ans post h2
    obtain ⟨rest, hrest⟩ := pySplit_head (show (pys "</answer>") ≠ [] by decide)
      (ans ++ pys "</answer>" ++ post)
    simp only [hrest, List.headD_cons, hbf]
  · intro env prompt pre body post call hna h1 h2 h3 hparse
    have hsep : (pys "<function_calls>") ≠ [] := by decide
    have hsf : splitFirst (pys "<function_calls>")
        (pre ++ pys "<function_calls>" ++ (body ++ pys "</function_calls>" ++ post))
        = some (pre, body ++ pys "</function_calls>" ++ post) :=
      splitFirst_of_cleanBefore hsep pre _ h1
    rw [single_retriever_step, hna, if_neg (by simp)]
    rw [pySplit_cons_of_splitFirst hsep hsf, pySplit_single h3]
    have hbf := beforeFirst_of_cleanBefore (show (pys "</function_calls>") ≠ [] by decide)
      body post h2
    obtain ⟨rest, hrest⟩ := pySplit_head (show (pys "</function_calls>") ≠ [] by decide)
      (body ++ pys "</function_calls>" ++ post)
    simp only [hrest, List.headD_cons, hbf, hparse]
    cases hcf : call_function env.run call.tool_name call.parameters with
    | none => simp [hcf]
    | some r => simp [hcf]

theorem c4_retriever_amended_witness :
    (cleanBefore (pys "<answer>") (pys "Hi ") ∧
      cleanBefore (pys "</answer>") (pys "42") ∧
      splitFirst (pys "<answer>") (pys "42" ++ pys "</answer>" ++ pys "!") = none ∧
      single_retriever_step failingAgentEnv []
          (pys "Hi " ++ pys "<answer>" ++ (pys "42" ++ pys "</answer>" ++ pys "!"))
        = some (true, pys "42")) ∧
    (invokeModelEnv.parseInvoke (pys "B") = some ⟨"invoke_model", []⟩ ∧
      single_retriever_step invokeModelEnv []
          (pys "A" ++ pys "<function_calls>" ++ (pys "B" ++ pys "</function_calls>" ++ []))
        = (call_function invokeModelEnv.run "invoke_model" []).map
            (fun r => (false,
              [] ++ (pys "A" ++ pys "<function_calls>" ++ (pys "B" ++ pys "</function_calls>" ++ []))
                ++ func_response_str r))) :=
  ⟨⟨by decide, by decide, by decide,
    c4_retriever_amended.1 failingAgentEnv [] (pys "Hi ") (pys "42") (pys "!")
      (by decide) (by decide) (by decide)⟩,
   ⟨by decide,
    c4_retriever_amended.2 invokeModelEnv [] (pys "A") (pys "B") [] ⟨"invoke_model", []⟩
      (by decide) (by decide) (by decide) (by decide) (by decide)⟩⟩

/-- C9 counterexample: on an output with no `<answer>` tag and no
`<function_calls>` block, single_retriever_step raises IndexError
(`output.split('<function_calls>')[1]`) instead of returning done=False with
an extended prompt. -/
theorem c9_append_only_cex :
    pyContains (pys "hello") (pys "<answer>") = false ∧
    single_retriever_step failingAgentEnv [] (pys "hello") = none := by
  decide

/-- C9 (amended): whenever single_retriever_step is applied to a prompt and
an output without `<answer>` and it returns (the function-call parse and
tool dispatch succeed rather than raise), it returns done=False and a new
prompt that has the input prompt as a strict prefix, extended with the model
output followed by the wrapped function results. -/
theorem c9_append_only_amended (env : AgentEnv) (prompt output : PyStr)
    (b : Bool) (p2 : PyStr)
    (hna : pyContains output (pys "<answer>") = false)
    (hres : single_retriever_step env prompt output = some (b, p2)) :
    b = false ∧ prompt <+: p2 ∧ prompt ≠ p2 ∧
      ∃ r, p2 = prompt ++ output ++ func_response_str r := by
  rw [single_retriever_step, hna, if_neg (by simp)] at hres
  cases hsp : pySplit output (pys "<function_calls>") with
  | nil => rw [hsp] at hres; exact absurd hres (by simp)
  | cons a tl =>
    cases tl with
    | nil => rw [hsp] at hres; exact absurd hres (by simp)
    | cons seg tl2 =>
      rw [hsp] at hres
      simp only at hres
      cases hpi : env.parseInvoke ((pySplit seg (pys "</function_calls>")).headD []) with
      | none => rw [hpi] at hres; exact absurd hres (by simp)
      | some call =>
        simp only [hpi] at hres
        cases hcf : call_function env.run call.tool_name call.parameters with
        | none => simp only [hcf] at hres; exact absurd hres (by simp)
        | some r =>
          simp only [hcf] at hres
          simp only [Option.some.injEq, Prod.mk.injEq] at hres
          obtain ⟨hb, hp2⟩ := hres
          have hlen : prompt.length < p2.length := by
            rw [← hp2]
            simp only [func_response_str, List.length_append]
            have hpos : 0 < (pys "\n\nHuman: Here is the result from your function call\n\n").length := by
              decide
            omega
          refine ⟨hb.symm, ?_, ?_, ⟨r, hp2.symm⟩⟩
          · exact ⟨output ++ func_response_str r, by rw [← hp2]; simp⟩
          · intro hEq
            rw [hEq] at hlen
            exact lt_irrefl _ hlen

def c9Out : PyStr := pys "go<function_calls>B</function_calls>"

def c9P2 : PyStr := pys "P: " ++ c9Out ++ func_response_str (pys "invoke_model")

theorem c9_append_only_amended_witness :
    pyContains c9Out (pys "<answer>") = false ∧
    single_retriever_step invokeModelEnv (pys "P: ") c9Out = some (false, c9P2) ∧
    (false = false ∧ pys "P: " <+: c9P2 ∧ pys "P: " ≠ c9P2 ∧
      ∃ r, c9P2 = pys "P: " ++ c9Out ++ func_response_str r) :=
  ⟨by decide, by decide,
   c9_append_only_amended invokeModelEnv (pys "P: ") c9Out false c9P2 (by decide) (by decide)⟩

/-! ## C3: Glue-crawler polling loop
(how_to_generate_metadata_for_glue_data_catalog_w_bedrock.ipynb) -/

/-- State of the `while True` polling loop: number of get_crawler calls made,
the state_previous variable, and the total seconds spent in `time.sleep(10)`
calls inside the loop. -/
structure CrawlerPollState where
  polls : Nat
  state_previous : Option String
  slept : Nat
  deriving DecidableEq, Repr

/-- One-observation-per-poll embedding of the loop body: `obs n` is the
`Crawler.State` returned by the n-th get_crawler call.  The loop breaks only
on "READY" and otherwise sleeps 10 seconds and polls again; `none` models a
run still inside the loop when the fuel runs out. -/
def crawlerLoopAux (obs : Nat → String) : Nat → CrawlerPollState → Option CrawlerPollState
  | 0, _ => none
  | fuel + 1, st =>
    let state := obs st.polls
    let prev1 := if some state ≠ st.state_previous then some state else st.state_previous
    if state = "READY" then
      some { polls := st.polls + 1, state_previous := prev1, slept := st.slept }
    else
      crawlerLoopAux obs fuel
        { polls := st.polls + 1, state_previous := prev1, slept := st.slept + 10 }

/-- The polling loop started from the initial state
(`state_previous = None`, nothing slept). -/
def crawler_poll_loop (obs : Nat → String) (fuel : Nat) : Option CrawlerPollState :=
  crawlerLoopAux obs fuel { polls := 0, state_previous := none, slept := 0 }

theorem crawlerLoopAux_none (obs : Nat → String) :
    ∀ fuel st, (∀ m, m < fuel → obs (st.polls + m) ≠ "READY") →
      crawlerLoopAux obs fuel st = none := by
  intro fuel
  induction fuel with
  | zero => intro st _; rfl
  | succ n ih =>
    intro st h
    rw [crawlerLoopAux]
    have h0 : obs st.polls ≠ "READY" := by simpa using h 0 (Nat.succ_pos n)
    rw [if_neg h0]
    exact ih _ (fun m hm => by
      have := h (m + 1) (by omega)
      simpa [Nat.add_assoc, Nat.add_comm 1 m] using this)

theorem crawlerLoopAux_ready (obs : Nat → String) :
    ∀ n fuel st, n < fuel → (∀ m, m < n → obs (st.polls + m) ≠ "READY") →
      obs (st.polls + n) = "READY" →
      crawlerLoopAux obs fuel st
        = some { polls := st.polls + n + 1, state_previous := some "READY",
                 slept := st.slept + 10 * n } := by
  intro n
  induction n with
  | zero =>
    intro fuel st hfuel _ hready
    obtain ⟨f, rfl⟩ : ∃ f, fuel = f + 1 := ⟨fuel - 1, by omega⟩
    simp only [Nat.add_zero] at hready
    rw [crawlerLoopAux, if_pos hready]
    have hprev : (if some (obs st.polls) ≠ st.state_previous
        then some (obs st.polls) else st.state_previous) = some "READY" := by
      by_cases hc : some (obs st.polls) ≠ st.state_previous
      · rw [if_pos hc, hready]
      · rw [if_neg hc]
        push_neg at hc
        rw [← hc, hready]
    rw [hprev]
    simp only [Nat.add_zero, Nat.mul_zero]
  | succ k ih =>
    intro fuel st hfuel h hready
    obtain ⟨f, rfl⟩ : ∃ f, fuel = f + 1 := ⟨fuel - 1, by omega⟩
    rw [crawlerLoopAux]
    have h0 : obs st.polls ≠ "READY" := by simpa using h 0 (Nat.succ_pos k)
    rw [if_neg h0]
    have hrec := ih f
      { polls := st.polls + 1
        state_previous := if some (obs st.polls) ≠ st.state_previous
          then some (obs st.polls) else st.state_previous
        slept := st.slept + 10 }
      (by omega)
      (fun m hm => by
        have := h (m + 1) (by omega)
        simpa [Nat.add_assoc, Nat.add_comm 1 m] using this)
      (by simpa [Nat.add_assoc, Nat.add_comm 1 k] using hready)
    rw [hrec]
    have h1 : st.polls + 1 + k + 1 = st.polls + (k + 1) + 1 := by omega
    have h2 : st.slept + 10 + 10 * k = st.slept + 10 * (k + 1) := by ring
    rw [h1, h2]

/-- C3: the crawler polling loop exits only upon observing "READY": as long
as every observation made so far differs from "READY" the loop is still
running (and has slept 10 seconds between consecutive polls), and as soon as
"READY" is observed — at the first poll index n where it appears — the loop
terminates, having polled n+1 times and slept 10·n seconds. -/
theorem c3_crawler_poll_ready :
    (∀ obs fuel, (∀ m, m < fuel → obs m ≠ "READY") →
      crawler_poll_loop obs fuel = none) ∧
    (∀ obs n, (∀ m, m < n → obs m ≠ "READY") → obs n = "READY" →
      (∀ fuel, fuel ≤ n → crawler_poll_loop obs fuel = none) ∧
      (∀ fuel, n < fuel → crawler_poll_loop obs fuel
        = some { polls := n + 1, state_previous := some "READY", slept := 10 * n })) := by
  constructor
  · intro obs fuel h
    exact crawlerLoopAux_none obs fuel _ (fun m hm => by simpa using h m hm)
  · intro obs n h hready
    constructor
    · intro fuel hfuel
      exact crawlerLoopAux_none obs fuel _ (fun m hm => by
        simpa using h m (by omega))
    · intro fuel hfuel
      have := crawlerLoopAux_ready obs n fuel
        { polls := 0, state_previous := none, slept := 0 } hfuel
        (fun m hm => by simpa using h m hm) (by simpa using hready)
      simpa [crawler_poll_loop] using this

/-- Observation trace used to witness C3: two RUNNING polls, then READY. -/
def c3Obs : Nat → String := fun m => if m < 2 then "RUNNING" else "READY"

theorem c3_crawler_poll_ready_witness :
    (∀ m, m < 2 → c3Obs m ≠ "READY") ∧ c3Obs 2 = "READY" ∧
    crawler_poll_loop c3Obs 2 = none ∧
    crawler_poll_loop c3Obs 5
      = some { polls := 3, state_previous := some "READY", slept := 20 } :=
  ⟨by decide, by decide,
   (c3_crawler_poll_ready.2 c3Obs 2 (by decide) (by decide)).1 2 (by decide),
   (c3_crawler_poll_ready.2 c3Obs 2 (by decide) (by decide)).2 5 (by decide)⟩

/-! ## C6: idempotent resource-creation cells -/

/-- Result of running a notebook cell: it completed (printing the
already-exists message or not), or an exception escaped to the cell output. -/
inductive CellResult where
  | completed (printedSkip : Bool)
  | raised (cls : String) (code : Option String)
  deriving DecidableEq, Repr

/-- create_dynamo_table simply issues the create_table SDK call and returns
its response, so its outcome is the outcome of the call. -/
def create_dynamo_table (svc : PyResult Unit) : PyResult Unit := svc

/-- The table-creation cell: try create_dynamo_table; catch ClientError and
swallow it exactly when its error code is ResourceInUseException, re-raising
every other ClientError; any non-ClientError exception propagates uncaught. -/
def create_table_cell (svc : PyResult Unit) : CellResult :=
  match create_dynamo_table svc with
  | .ok _ => .completed false
  | .exc cls code =>
    if cls = "ClientError" then
      if code = some "ResourceInUseException" then .completed true
      else .raised cls code
    else .raised cls code

/-- The place-index creation cell: try create_place_index; catch the
location client's ConflictException (whatever its error code) and pass;
everything else propagates. -/
def create_place_index_cell (svc : PyResult Unit) : CellResult :=
  match svc with
  | .ok _ => .completed false
  | .exc cls code =>
    if cls = "ConflictException" then .completed true else .raised cls code

/-- C6: resource-creation setup is idempotent with respect to already-exists
errors and propagates all others: the table-creation cell completes without
error exactly when create_table succeeds or raises a ClientError with code
ResourceInUseException, re-raising every other exception unchanged; the
place-index cell completes without error exactly when create_place_index
succeeds or raises ConflictException, and propagates everything else. -/
theorem c6_idempotent_setup :
    (∀ svc : PyResult Unit, (∃ b, create_table_cell svc = .completed b) ↔
      (svc = .ok () ∨ svc = .exc "ClientError" (some "ResourceInUseException"))) ∧
    (∀ cls code, ¬ (cls = "ClientError" ∧ code = some "ResourceInUseException") →
      create_table_cell (.exc cls code) = .raised cls code) ∧
    (∀ svc : PyResult Unit, (∃ b, create_place_index_cell svc = .completed b) ↔
      (svc = .ok () ∨ ∃ code, svc = .exc "ConflictException" code)) ∧
    (∀ cls code, cls ≠ "ConflictException" →
      create_place_index_cell (.exc cls code) = .raised cls code) := by
  refine ⟨?_, ?_, ?_, ?_⟩
  · intro svc
    cases svc with
    | ok u => cases u; exact ⟨fun _ => Or.inl rfl, fun _ => ⟨false, rfl⟩⟩
    | exc cls code =>
      simp only [create_table_cell, create_dynamo_table]
      constructor
      · intro hex
        by_cases h1 : cls = "ClientError"
        · subst h1
          by_cases h2 : code = some "ResourceInUseException"
          · subst h2; exact Or.inr rfl
          · rw [if_pos rfl, if_neg h2] at hex
            obtain ⟨b, hb⟩ := hex
            cases hb
        · rw [if_neg h1] at hex
          obtain ⟨b, hb⟩ := hex
          cases hb
      · rintro (h | h)
        · cases h
        · cases h
          exact ⟨true, by decide⟩
  · intro cls code h
    simp only [create_table_cell, create_dynamo_table]
    by_cases h1 : cls = "ClientError"
    · subst h1
      have h2 : code ≠ some "ResourceInUseException" := fun hc => h ⟨rfl, hc⟩
      rw [if_pos rfl, if_neg h2]
    · rw [if_neg h1]
  · intro svc
    cases svc with
    | ok u => cases u; exact ⟨fun _ => Or.inl rfl, fun _ => ⟨false, rfl⟩⟩
    | exc cls code =>
      simp only [create_place_index_cell]
      constructor
      · intro hex
        by_cases h1 : cls = "ConflictException"
        · subst h1; exact Or.inr ⟨code, rfl⟩
        · rw [if_neg h1] at hex
          obtain ⟨b, hb⟩ := hex
          cases hb
      · rintro (h | ⟨c, h⟩)
        · cases h
        · cases h
          exact ⟨true, by simp⟩
  · intro cls code h
    simp only [create_place_index_cell]
    rw [if_neg h]

theorem c6_idempotent_setup_witness :
    (∃ b, create_table_cell (.exc "ClientError" (some "ResourceInUseException"))
      = .completed b) ∧
    create_table_cell (.exc "ClientError" (some "AccessDeniedException"))
      = .raised "ClientError" (some "AccessDeniedException") ∧
    (∃ b, create_place_index_cell (.exc "ConflictException" none) = .completed b) ∧
    create_place_index_cell (.exc "AccessDeniedException" none)
      = .raised "AccessDeniedException" none :=
  ⟨(c6_idempotent_setup.1 _).mpr (Or.inr rfl),
   c6_idempotent_setup.2.1 "ClientError" (some "AccessDeniedException") (by simp),
   (c6_idempotent_setup.2.2.1 _).mpr (Or.inr ⟨none, rfl⟩),
   c6_idempotent_setup.2.2.2 "AccessDeniedException" none (by decide)⟩

/-! ## C10: get_all_terms scan pagination
(01-setup-create-insert-dynamodb.ipynb) -/

/-- A DynamoDB item as returned by the scan with
`ProjectionExpression='term'`. -/
structure DdbItem where
  term : PyStr
  deriving DecidableEq, Repr

/-- A response of `table.scan`: the Items page and the optional
LastEvaluatedKey. -/
structure ScanResponse where
  items : List DdbItem
  lastEvaluatedKey : Option String
  deriving DecidableEq, Repr

/-- The `while 'LastEvaluatedKey' in response` loop of get_all_terms: `scan`
is the service oracle taking the ExclusiveStartKey (`none` on the initial
call); `none` is a run whose fuel ran out while pages kept carrying a
LastEvaluatedKey. -/
def scanWhileLoop (scan : Option String → ScanResponse) :
    Nat → ScanResponse → List PyStr → Option (List PyStr)
  | fuel, response, terms =>
    match response.lastEvaluatedKey with
    | none => some terms
    | some k =>
      match fuel with
      | 0 => none
      | fuel + 1 =>
        let response1 := scan (some k)
        scanWhileLoop scan fuel response1 (terms ++ response1.items.map DdbItem.term)

/-- get_all_terms: initial scan without ExclusiveStartKey, then follow-up
scans while the previous response contains LastEvaluatedKey, accumulating
each page's term attributes in order. -/
def get_all_terms (scan : Option String → ScanResponse) (fuel : Nat) :
    Option (List PyStr) :=
  let response := scan none
  scanWhileLoop scan fuel response (response.items.map DdbItem.term)

theorem scanWhileLoop_chain (scan : Option String → ScanResponse)
    (keys : Nat → Option String) (n : Nat)
    (hchain : ∀ i, i < n →
      (scan (keys i)).lastEvaluatedKey = keys (i + 1) ∧ keys (i + 1) ≠ none)
    (hlast : (scan (keys n)).lastEvaluatedKey = none) :
    ∀ r j fuel acc, j + r = n → r ≤ fuel →
      scanWhileLoop scan fuel (scan (keys j)) acc
        = some (acc ++ (List.range' (j + 1) r).flatMap
            (fun i => (scan (keys i)).items.map DdbItem.term)) := by
  intro r
  induction r with
  | zero =>
    intro j fuel acc hj _
    have hj' : j = n := by omega
    subst hj'
    rw [scanWhileLoop, hlast]
    show some acc = _
    simp
  | succ r' ih =>
    intro j fuel acc hj hr
    have hjn : j < n := by omega
    obtain ⟨hk, hkne⟩ := hchain j hjn
    obtain ⟨k, hkk⟩ := Option.ne_none_iff_exists'.mp hkne
    obtain ⟨f, rfl⟩ : ∃ f, fuel = f + 1 := ⟨fuel - 1, by omega⟩
    have hsome : (scan (keys j)).lastEvaluatedKey = some k := by rw [hk, hkk]
    rw [scanWhileLoop, hsome]
    show scanWhileLoop scan f (scan (some k)) (acc ++ (scan (some k)).items.map DdbItem.term)
      = some (acc ++ (List.range' (j + 1) (r' + 1)).flatMap
          (fun i => (scan (keys i)).items.map DdbItem.term))
    rw [← hkk]
    rw [ih (j + 1) f (acc ++ (scan (keys (j + 1))).items.map DdbItem.term)
      (by omega) (by omega)]
    rw [List.range'_succ]
    simp [List.append_assoc]

/-- C10: get_all_terms returns the term attribute of every item across all
scan pages in page order: it keeps issuing follow-up scans with the previous
response's LastEvaluatedKey as ExclusiveStartKey for as long as that key is
present, and the returned list is the concatenation of the terms of every
page (here for any finite chain of pages, i.e. whenever the scan chain
reaches a page without LastEvaluatedKey after n follow-ups). -/
theorem c10_get_all_terms_pages (scan : Option String → ScanResponse)
    (keys : Nat → Option String) (n : Nat) (h0 : keys 0 = none)
    (hchain : ∀ i, i < n →
      (scan (keys i)).lastEvaluatedKey = keys (i + 1) ∧ keys (i + 1) ≠ none)
    (hlast : (scan (keys n)).lastEvaluatedKey = none) :
    ∀ fuel, n ≤ fuel →
      get_all_terms scan fuel
        = some ((List.range (n + 1)).flatMap
            (fun i => (scan (keys i)).items.map DdbItem.term)) := by
  intro fuel hfuel
  unfold get_all_terms
  rw [← h0]
  rw [scanWhileLoop_chain scan keys n hchain hlast n 0 fuel
    ((scan (keys 0)).items.map DdbItem.term) (by omega) hfuel]
  rw [List.range_eq_range', List.range'_succ]
  simp

/-- Scan oracle used to witness C10: two pages chained through key "k1". -/
def c10Scan : Option String → ScanResponse :=
  fun k =>
    match k with
    | none => ⟨[⟨pys "apple"⟩], some "k1"⟩
    | some s => if s = "k1" then ⟨[⟨pys "banana"⟩], none⟩ else ⟨[], none⟩

def c10Keys : Nat → Option String := fun i => if i = 0 then none else some "k1"

theorem c10_get_all_terms_pages_witness :
    c10Keys 0 = none ∧
    (∀ i, i < 1 →
      (c10Scan (c10Keys i)).lastEvaluatedKey = c10Keys (i + 1) ∧ c10Keys (i + 1) ≠ none) ∧
    (c10Scan (c10Keys 1)).lastEvaluatedKey = none ∧
    get_all_terms c10Scan 1 = some [pys "apple", pys "banana"] :=
  ⟨by decide, by decide, by decide, by
    have h := c10_get_all_terms_pages c10Scan c10Keys 1 (by decide) (by decide)
      (by decide) 1 (le_refl 1)
    rw [h]
    decide⟩

/-! ## C7: client construction and retry configuration -/

structure RetryConfig where
  max_attempts : Nat
  mode : String
  deriving DecidableEq, Repr

/-- botocore Config, restricted to its retry content; `retries = none` means
the Config carries no retry override. -/
structure BotoConfig where
  retries : Option RetryConfig
  deriving DecidableEq, Repr

/-- A constructed boto3 client: the service name and the Config passed at
construction (`none` when no Config argument is given, so the SDK's own
default retry behaviour applies). -/
structure BotoClient where
  service : String
  config : Option BotoConfig
  deriving DecidableEq, Repr

/-- The retry_config built inside get_bedrock_client:
`retries = dict(max_attempts=10, mode="standard")`. -/
def bedrock_retry_config : BotoConfig :=
  { retries := some { max_attempts := 10, mode := "standard" } }

/-- get_bedrock_client constructs the bedrock-runtime (or bedrock) client
passing `config=retry_config`. -/
def get_bedrock_client (runtime : Bool) : BotoClient :=
  { service := if runtime then "bedrock-runtime" else "bedrock"
    config := some bedrock_retry_config }

/-- `boto3.client("glue", region_name="us-east-1")` — no Config. -/
def glue_client : BotoClient := { service := "glue", config := none }

/-- `boto3.client('s3')` — no Config. -/
def s3_client : BotoClient := { service := "s3", config := none }

/-- `boto3.client('location')` — no Config. -/
def location_client : BotoClient := { service := "location", config := none }

/-- `boto3.client('dynamodb')` — no Config. -/
def dynamodb_client : BotoClient := { service := "dynamodb", config := none }

/-- `boto3.client(service_name='bedrock-runtime', region_name=region)` from
the agent notebook — no Config. -/
def boto3_bedrock : BotoClient := { service := "bedrock-runtime", config := none }

/-- The clients the notebooks construct without a Config argument. -/
def repo_plain_clients : List BotoClient :=
  [glue_client, s3_client, location_client, dynamodb_client, boto3_bedrock]

/-- Whether a constructed client carries an explicit retry configuration. -/
def hasExplicitRetries (c : BotoClient) : Bool :=
  match c.config with
  | some cfg => cfg.retries.isSome
  | none => false

/-- C7 counterexample: the Bedrock client returned by get_bedrock_client is
constructed with an explicit botocore Config whose retries are
`max_attempts=10, mode="standard"` — a retry policy beyond the SDK's
default behaviour, contradicting the claim that no client configures one. -/
theorem c7_retry_cex :
    hasExplicitRetries (get_bedrock_client true) = true ∧
    (get_bedrock_client true).config = some bedrock_retry_config ∧
    bedrock_retry_config.retries = some { max_attempts := 10, mode := "standard" } := by
  decide

/-- C7 (amended): every client the notebooks construct other than through
get_bedrock_client passes no Config, leaving the SDK default retry
behaviour; get_bedrock_client alone configures an explicit retry policy of
standard mode with max_attempts 10 on the Bedrock client. -/
theorem c7_retry_amended :
    (∀ c, c ∈ repo_plain_clients → hasExplicitRetries c = false) ∧
    (∀ runtime, (get_bedrock_client runtime).config
      = some { retries := some { max_attempts := 10, mode := "standard" } }) := by
  constructor
  · intro c hc
    fin_cases hc <;> rfl
  · intro runtime
    rfl

theorem c7_retry_amended_witness :
    glue_client ∈ repo_plain_clients ∧
    hasExplicitRetries glue_client = false ∧
    (get_bedrock_client true).config
      = some { retries := some { max_attempts := 10, mode := "standard" } } :=
  ⟨by decide, c7_retry_amended.1 glue_client (by decide), c7_retry_amended.2 true⟩

/-! ## C5: create_bedrock_execution_role (utility.py) -/

/-- An IAM API call issued by the role-creation helper. -/
inductive IamCall where
  | createPolicy (policyName : String) (description : String)
  | createRole (roleName : String) (description : String)
  | attachRolePolicy (roleName : String) (policyArn : String)
  deriving DecidableEq, Repr

def IamCall.isCreatePolicy : IamCall → Bool
  | .createPolicy _ _ => true
  | _ => false

def IamCall.isCreateRole : IamCall → Bool
  | .createRole _ _ => true
  | _ => false

/-- The ARN IAM assigns to a created customer managed policy. -/
def policy_arn (account policyName : String) : String :=
  "arn:aws:iam::" ++ account ++ ":policy/" ++ policyName

/-- The ARN IAM assigns to a created role. -/
def role_arn (account roleName : String) : String :=
  "arn:aws:iam::" ++ account ++ ":role/" ++ roleName

def fm_policy_name (suffix : String) : String :=
  "AmazonBedrockFoundationModelPolicyForKnowledgeBase_" ++ suffix

def s3_policy_name (suffix : String) : String :=
  "AmazonBedrockS3PolicyForKnowledgeBase_" ++ suffix

def bedrock_execution_role_name (suffix : String) : String :=
  "AmazonBedrockExecutionRoleForKnowledgeBase_" ++ suffix

/-- The Role entry of a create_role response. -/
structure IamRole where
  roleName : String
  arn : String
  deriving DecidableEq, Repr

/-- Modelled from the spec: the body of create_bedrock_execution_role from
utility.py, whose source is present in the repository only as a corrupted
compiled artifact (utility.cpython-310.pyc with bytecode bytes lost to a
UTF-8 re-encode); the spec sentence "A function returning
execution-role/policy ARNs for a Bedrock knowledge base by calling
create_role/create_policy/attach_role_policy" together with the names,
descriptions and call order recoverable from the artifact's string table fix
the behaviour: create the foundation-model policy and the S3 policy via
create_policy, create the execution role via create_role, attach both
policy ARNs to that role via attach_role_policy, and return the role.
The result pairs the returned role with the trace of IAM calls issued, in
order; `suffix` is the module-level random suffix, `account` the caller's
account number. -/
def create_bedrock_execution_role (account suffix : String) : IamRole × List IamCall :=
  let fmName := fm_policy_name suffix
  let s3Name := s3_policy_name suffix
  let roleName := bedrock_execution_role_name suffix
  let fm_policy_arn := policy_arn account fmName
  let s3_policy_arn := policy_arn account s3Name
  let bedrock_kb_execution_role : IamRole :=
    { roleName := roleName, arn := role_arn account roleName }
  (bedrock_kb_execution_role,
   [ .createPolicy fmName "Policy for accessing foundation model",
     .createPolicy s3Name "Policy for reading documents from s3",
     .createRole roleName
       "Amazon Bedrock Knowledge Base Execution Role for accessing OSS and S3",
     .attachRolePolicy roleName fm_policy_arn,
     .attachRolePolicy roleName s3_policy_arn ])

/-- C5: create_bedrock_execution_role issues exactly two create_policy calls
and one create_role call; every attach_role_policy call attaches the ARN of
one of the two created policies to the created execution role; each created
policy is attached to that role; and the function returns the execution role
created by create_role, whose ARN is the role's IAM ARN. -/
theorem c5_execution_role_calls (account suffix : String) :
    ((create_bedrock_execution_role account suffix).2.countP
        (fun c => IamCall.isCreatePolicy c) = 2) ∧
    ((create_bedrock_execution_role account suffix).2.countP
        (fun c => IamCall.isCreateRole c) = 1) ∧
    (∀ rn pa, IamCall.attachRolePolicy rn pa
        ∈ (create_bedrock_execution_role account suffix).2 →
      rn = (create_bedrock_execution_role account suffix).1.roleName ∧
      ∃ pn d, IamCall.createPolicy pn d ∈ (create_bedrock_execution_role account suffix).2 ∧
        pa = policy_arn account pn) ∧
    (∀ pn d, IamCall.createPolicy pn d ∈ (create_bedrock_execution_role account suffix).2 →
      IamCall.attachRolePolicy
          (create_bedrock_execution_role account suffix).1.roleName
          (policy_arn account pn)
        ∈ (create_bedrock_execution_role account suffix).2) ∧
    (∃ d, IamCall.createRole (create_bedrock_execution_role account suffix).1.roleName d
      ∈ (create_bedrock_execution_role account suffix).2) ∧
    (create_bedrock_execution_role account suffix).1.arn
      = role_arn account (bedrock_execution_role_name suffix) := by
  refine ⟨rfl, rfl, ?_, ?_, ?_, rfl⟩
  · intro rn pa h
    simp only [create_bedrock_execution_role, List.mem_cons, List.not_mem_nil, or_false] at h
    rcases h with h | h | h | h | h
    · cases h
    · cases h
    · cases h
    · cases h
      exact ⟨rfl, fm_policy_name suffix, "Policy for accessing foundation model",
        by simp [create_bedrock_execution_role], rfl⟩
    · cases h
      exact ⟨rfl, s3_policy_name suffix, "Policy for reading documents from s3",
        by simp [create_bedrock_execution_role], rfl⟩
  · intro pn d h
    simp only [create_bedrock_execution_role, List.mem_cons, List.not_mem_nil, or_false] at h
    rcases h with h | h | h | h | h
    · cases h
      simp [create_bedrock_execution_role]
    · cases h
      simp [create_bedrock_execution_role]
    · cases h
    · cases h
    · cases h
  · exact ⟨"Amazon Bedrock Knowledge Base Execution Role for accessing OSS and S3",
      by simp [create_bedrock_execution_role]⟩

theorem c5_execution_role_calls_witness :
    (IamCall.attachRolePolicy
        (bedrock_execution_role_name "860")
        (policy_arn "123456789012" (fm_policy_name "860"))
      ∈ (create_bedrock_execution_role "123456789012" "860").2) ∧
    ((bedrock_execution_role_name "860")
        = (create_bedrock_execution_role "123456789012" "860").1.roleName ∧
      ∃ pn d, IamCall.createPolicy pn d ∈ (create_bedrock_execution_role "123456789012" "860").2 ∧
        policy_arn "123456789012" (fm_policy_name "860") = policy_arn "123456789012" pn) :=
  ⟨by decide,
   (c5_execution_role_calls "123456789012" "860").2.2.1
     (bedrock_execution_role_name "860")
     (policy_arn "123456789012" (fm_policy_name "860")) (by decide)⟩

end BedrockSamples
